import Mathlib

/-!
Verification development for the BrokerOS mortgage-broker CRM.

The definitions below are a shallow embedding of the TypeScript source:

* the record types mirror the schema declarations (the interfaces for
  `User`, `Lead`, `Borrower`, `Touch`, `LoanParams`, `ChangeLogEntry`);
* the storage layer (`getLeads`, `findDuplicateLead`, `saveLead`,
  `addTouch`, `deleteTouch`) mirrors the storage service, with the
  key-value store modelled as a `Store` record whose `Option` fields
  model an absent key, and with `Date.now()` / id generation passed in
  as explicit parameters;
* the reconciliation engine (`prepareReview`, `executeBatchSave`) and the
  structural borrower edits (`handleAddBorrower`, `handleRemoveBorrower`)
  mirror the lead-detail page logic, with the signed-in user's name and
  the generated ids/timestamps passed in as parameters;
* the advisory AI boundary (`generateLeadSummary`, `suggestNextAction`)
  mirrors the AI service, with the provider call's outcome passed as an
  `Except` value.

JavaScript numbers are modelled as `ℚ`, timestamps as `Nat`, and the
dynamically typed values that flow through `DetectedChange.oldValue` /
`newValue` and `ChangeLogEntry.oldValue` / `newValue` as the sum type
`ChangeVal`.
-/

namespace BrokerOS

/-- Roles of system users, from the `UserRole` enum. -/
inductive UserRole where
  | LO
  | ADMIN
  | PROCESSOR
deriving DecidableEq

/-- System user, from the `User` interface. -/
structure User where
  id : String
  email : String
  name : String
  role : UserRole
  createdAt : Nat
deriving DecidableEq

/-- Pipeline stages, from the `LeadStatus` enum. -/
inductive LeadStatus where
  | NEW
  | ATTEMPTED_CONTACT
  | IN_COMMUNICATION
  | APPLICATION_TAKEN
  | PROCESSING
  | FUNDED
  | ARCHIVED
  | LOST
deriving DecidableEq

/-- Channels of communication, from the `TouchType` enum. -/
inductive TouchType where
  | CALL
  | EMAIL
  | TEXT
  | WHATSAPP
  | NOTE
  | MEETING
deriving DecidableEq

/-- Results of communication, from the `TouchOutcome` enum. -/
inductive TouchOutcome where
  | SPOKE
  | VOICEMAIL
  | NO_ANSWER
  | REPLIED
  | OPENED
  | SENT
  | INTERNAL
deriving DecidableEq

/-- Subject property types, from the `PropertyType` enum. -/
inductive PropertyType where
  | SFH
  | CONDO
  | MULTI
  | TOWNHOUSE
deriving DecidableEq

/-- Subject property occupancy, from the `PropertyUse` enum. -/
inductive PropertyUse where
  | PRIMARY
  | SECOND
  | INVESTMENT
deriving DecidableEq

/-- Audit reason codes, from the `ChangeReason` union type. -/
inductive ChangeReason where
  | CORRECTION
  | BORROWER_REQUEST
  | SCENARIO_TEST
  | OTHER
deriving DecidableEq

/-- Loan scenario, from the `LoanParams` interface.  JavaScript numbers are
modelled as rationals; the string-union fields `loanType` and `purpose` are
modelled as strings, matching their runtime representation. -/
structure LoanParams where
  loanAmount : ℚ
  purchasePrice : ℚ
  interestRate : ℚ
  loanType : String
  purpose : String
  propertyType : PropertyType
  propertyUse : PropertyUse
  state : String
  zip : String
  creditScore : ℚ
deriving DecidableEq

/-- Person on the loan, from the `Borrower` interface. -/
structure Borrower where
  id : String
  firstName : String
  lastName : String
  email : String
  phone : String
  isPrimary : Bool
deriving DecidableEq

/-- Runtime value of one `loanParams` field.  The four variants cover the
four static types that occur among the ten fields. -/
inductive LoanVal where
  | num (q : ℚ)
  | str (s : String)
  | ptype (t : PropertyType)
  | puse (u : PropertyUse)
deriving DecidableEq

/-- Dynamically typed value carried in `DetectedChange.oldValue` /
`newValue` (typed `any` in the source) and in `ChangeLogEntry.oldValue` /
`newValue` (typed `string | number`).  Each variant records the provenance
of the value: a lead status, a display string, a plain number, or a
`loanParams` field value. -/
inductive ChangeVal where
  | ofStatus (s : LeadStatus)
  | ofStr (s : String)
  | ofNum (q : ℚ)
  | ofLoan (v : LoanVal)
deriving DecidableEq

/-- Audit record, from the `ChangeLogEntry` interface.  The optional
`comment` is modelled as a string (the source always supplies one). -/
structure ChangeLogEntry where
  id : String
  timestamp : Nat
  field : String
  oldValue : ChangeVal
  newValue : ChangeVal
  reason : ChangeReason
  comment : String
  changedBy : String
deriving DecidableEq

/-- Interaction record, from the `Touch` interface. -/
structure Touch where
  id : String
  leadId : String
  type : TouchType
  outcome : TouchOutcome
  content : String
  timestamp : Nat
  createdBy : String
deriving DecidableEq

/-- The central aggregate, from the `Lead` interface.  Optional/nullable
fields are modelled with `Option`. -/
structure Lead where
  id : String
  assignedTo : Option String
  processorId : Option String
  borrowers : List Borrower
  status : LeadStatus
  createdAt : Nat
  updatedAt : Nat
  lastTouchTimestamp : Option Nat
  lastTouchType : Option TouchType
  totalTouches : Nat
  nextFollowUp : Option Nat
  loanParams : LoanParams
  changeLog : List ChangeLogEntry
deriving DecidableEq

/-! ### The key-value store -/

/-- The durable key-value store: the leads collection and the touches
collection, each `none` when the key is absent (users and the session
pointer are passed explicitly to the functions that need them). -/
structure Store where
  leadsKey : Option (List Lead)
  touchesKey : Option (List Touch)
deriving DecidableEq

/-- JavaScript truthiness test for an optional string: `undefined` and the
empty string are falsy. -/
def isFalsyStr : Option String → Bool
  | none => true
  | some s => s = ""

/-- Migration step of `getLeads`: a lead whose `assignedTo` is falsy is
defaulted to the fixed officer id `lo1`.  The second migration of the
source (defaulting a missing `totalTouches` to 0) is invisible in the
typed model, where `totalTouches` is always present. -/
def migrate (l : Lead) : Lead :=
  if isFalsyStr l.assignedTo then { l with assignedTo := some ("lo1") } else l

/-- Visible leads for a user, from `getLeads`: migrate every stored lead,
then apply RBAC — `ADMIN` and `PROCESSOR` see everything, a loan officer
only the leads assigned to them.  The load/seed step of the source is
modelled by passing the stored collection `allLeads` directly. -/
def getLeads (user : User) (allLeads : List Lead) : List Lead :=
  let migrated := allLeads.map migrate
  if user.role = UserRole.ADMIN ∨ user.role = UserRole.PROCESSOR then migrated
  else migrated.filter (fun l => l.assignedTo = some user.id)

/-- Lower-case a string character-wise, modelling `toLowerCase`. -/
def jsToLower (s : String) : String :=
  (s.toList.map Char.toLower).asString

/-- Predicate of `findDuplicateLead`: some borrower of the lead matches the
queried email (case-insensitively, when non-empty) or the queried phone
(exactly, when non-empty). -/
def matchesQuery (email phone : String) (l : Lead) : Bool :=
  l.borrowers.any (fun b =>
    (!(email = "") && jsToLower b.email = jsToLower email) ||
    (!(phone = "") && b.phone = phone))

/-- Duplicate detection, from `findDuplicateLead`: the first visible lead
some borrower of which matches the query. -/
def findDuplicateLead (user : User) (allLeads : List Lead) (email phone : String) : Option Lead :=
  (getLeads user allLeads).find? (matchesQuery email phone)

/-- Upsert of a lead, from `saveLead`.  `user` models `getCurrentUser()`
(the session user, consulted only on insert), `now` models `Date.now()`.
The upsert works on the full unfiltered stored collection. -/
def saveLead (user : User) (now : Nat) (lead : Lead) (st : Store) : Store :=
  let allLeads := st.leadsKey.getD []
  match allLeads.findIdx? (fun l => l.id = lead.id) with
  | some i =>
      { st with leadsKey := some (allLeads.set i { lead with updatedAt := now }) }
  | none =>
      let lead' := if isFalsyStr lead.assignedTo then { lead with assignedTo := some user.id } else lead
      { st with leadsKey := some (allLeads ++ [{ lead' with createdAt := now, updatedAt := now }]) }

/-- Input of `addTouch` (a touch without id and timestamp). -/
structure TouchInput where
  leadId : String
  type : TouchType
  outcome : TouchOutcome
  content : String
  createdBy : String
deriving DecidableEq

/-- Derived-state update performed by `addTouch` on the owning lead: stamp
the last-touch data, increment `totalTouches`, and advance a `NEW` lead to
`ATTEMPTED_CONTACT`. -/
def applyTouchStats (t : Touch) (lead : Lead) : Lead :=
  let lead' := { lead with
    lastTouchTimestamp := some t.timestamp,
    lastTouchType := some t.type,
    totalTouches := lead.totalTouches + 1 }
  if lead'.status = LeadStatus.NEW then { lead' with status := LeadStatus.ATTEMPTED_CONTACT } else lead'

/-- Append of a touch, from `addTouch`: assign id and timestamp, append to
the touch collection, then update the owning lead's derived stats — skipped
silently when the leads key is absent or no lead has the touch's `leadId`. -/
def addTouch (freshId : String) (now : Nat) (touch : TouchInput) (st : Store) : Touch × Store :=
  let allTouches := st.touchesKey.getD []
  let newTouch : Touch :=
    { id := freshId, leadId := touch.leadId, type := touch.type,
      outcome := touch.outcome, content := touch.content,
      timestamp := now, createdBy := touch.createdBy }
  let st1 : Store := { st with touchesKey := some (allTouches ++ [newTouch]) }
  match st1.leadsKey with
  | none => (newTouch, st1)
  | some leads =>
      match leads.findIdx? (fun l => l.id = touch.leadId) with
      | none => (newTouch, st1)
      | some i =>
          match leads.get? i with
          | none => (newTouch, st1)
          | some lead =>
              (newTouch, { st1 with leadsKey := some (leads.set i (applyTouchStats newTouch lead)) })

/-- Insert a touch into a list sorted by descending timestamp. -/
def sortDescInsert (t : Touch) : List Touch → List Touch
  | [] => [t]
  | x :: xs => if t.timestamp ≥ x.timestamp then t :: x :: xs else x :: sortDescInsert t xs

/-- Sort touches newest first, modelling `.sort((a, b) => b.timestamp - a.timestamp)`. -/
def sortByTimestampDesc (ts : List Touch) : List Touch :=
  ts.foldr sortDescInsert []

/-- Deletion of a touch, from `deleteTouch`: remove the touch if present
(no store write at all when the id is absent), then recompute the owning
lead's derived stats from its remaining touches.  The status is never
touched. -/
def deleteTouch (touchId leadId : String) (st : Store) : Store :=
  let allTouches := st.touchesKey.getD []
  let initialCount := allTouches.length
  let remaining := allTouches.filter (fun t => t.id ≠ touchId)
  if remaining.length = initialCount then st
  else
    let st1 : Store := { st with touchesKey := some remaining }
    match st1.leadsKey with
    | none => st1
    | some leads =>
        match leads.findIdx? (fun l => l.id = leadId) with
        | none => st1
        | some i =>
            match leads.get? i with
            | none => st1
            | some lead =>
                let leadTouches := sortByTimestampDesc (remaining.filter (fun t => t.leadId = leadId))
                let lead' :=
                  match leadTouches with
                  | [] => { lead with totalTouches := 0, lastTouchTimestamp := none, lastTouchType := none }
                  | t0 :: rest =>
                      { lead with
                        totalTouches := (t0 :: rest).length,
                        lastTouchTimestamp := some t0.timestamp,
                        lastTouchType := some t0.type }
                { st1 with leadsKey := some (leads.set i lead') }

/-! ### The change reconciliation engine -/

/-- One staged field-level difference, from the `DetectedChange` interface. -/
structure DetectedChange where
  id : String
  field : String
  label : String
  oldValue : ChangeVal
  newValue : ChangeVal
  reason : ChangeReason
  comment : String
  isApplied : Bool
deriving DecidableEq

/-- Names of the ten `loanParams` fields, in declaration (= `Object.keys`)
order. -/
inductive LoanKey where
  | loanAmount
  | purchasePrice
  | interestRate
  | loanType
  | purpose
  | propertyType
  | propertyUse
  | state
  | zip
  | creditScore
deriving DecidableEq

/-- The `Object.keys(lead.loanParams)` enumeration, in declaration order. -/
def loanKeys : List LoanKey :=
  [.loanAmount, .purchasePrice, .interestRate, .loanType, .purpose,
   .propertyType, .propertyUse, .state, .zip, .creditScore]

/-- The JSON key name of a `loanParams` field. -/
def loanKeyName : LoanKey → String
  | .loanAmount => "loanAmount"
  | .purchasePrice => "purchasePrice"
  | .interestRate => "interestRate"
  | .loanType => "loanType"
  | .purpose => "purpose"
  | .propertyType => "propertyType"
  | .propertyUse => "propertyUse"
  | .state => "state"
  | .zip => "zip"
  | .creditScore => "creditScore"

/-- Dynamic read `lead.loanParams[key]`. -/
def LoanParams.getVal (lp : LoanParams) : LoanKey → LoanVal
  | .loanAmount => .num lp.loanAmount
  | .purchasePrice => .num lp.purchasePrice
  | .interestRate => .num lp.interestRate
  | .loanType => .str lp.loanType
  | .purpose => .str lp.purpose
  | .propertyType => .ptype lp.propertyType
  | .propertyUse => .puse lp.propertyUse
  | .state => .str lp.state
  | .zip => .str lp.zip
  | .creditScore => .num lp.creditScore

/-- Dynamic write `lead.loanParams[key] = v`.  The source assigns whatever
value is stored in the change record; the only values ever assigned are the
ones `prepareReview` read from the very same field, so a variant mismatch
(the catch-all case) is unreachable and leaves the field unchanged. -/
def LoanParams.setVal (lp : LoanParams) (k : LoanKey) (v : LoanVal) : LoanParams :=
  match k, v with
  | .loanAmount, .num q => { lp with loanAmount := q }
  | .purchasePrice, .num q => { lp with purchasePrice := q }
  | .interestRate, .num q => { lp with interestRate := q }
  | .creditScore, .num q => { lp with creditScore := q }
  | .loanType, .str s => { lp with loanType := s }
  | .purpose, .str s => { lp with purpose := s }
  | .state, .str s => { lp with state := s }
  | .zip, .str s => { lp with zip := s }
  | .propertyType, .ptype t => { lp with propertyType := t }
  | .propertyUse, .puse u => { lp with propertyUse := u }
  | _, _ => lp

/-- Look a `loanParams` key up by its JSON name. -/
def loanKeyOfName (s : String) : Option LoanKey :=
  loanKeys.find? (fun k => loanKeyName k = s)

/-- Names of the editable borrower fields, in declaration order (`id` and
`isPrimary` are skipped by the diff, as in the source). -/
inductive BorrowerKey where
  | firstName
  | lastName
  | email
  | phone
deriving DecidableEq

/-- The editable borrower keys, in `Object.keys` order after the skips. -/
def borrowerKeys : List BorrowerKey :=
  [.firstName, .lastName, .email, .phone]

/-- The JSON key name of an editable borrower field. -/
def borrowerKeyName : BorrowerKey → String
  | .firstName => "firstName"
  | .lastName => "lastName"
  | .email => "email"
  | .phone => "phone"

/-- Dynamic read `borrower[key]` for the editable fields. -/
def Borrower.getB (b : Borrower) : BorrowerKey → String
  | .firstName => b.firstName
  | .lastName => b.lastName
  | .email => b.email
  | .phone => b.phone

/-- Dynamic write `borrower[key] = s` for the editable fields. -/
def Borrower.setB (b : Borrower) (k : BorrowerKey) (s : String) : Borrower :=
  match k with
  | .firstName => { b with firstName := s }
  | .lastName => { b with lastName := s }
  | .email => { b with email := s }
  | .phone => { b with phone := s }

/-- Look an editable borrower key up by its JSON name. -/
def borrowerKeyOfName (s : String) : Option BorrowerKey :=
  borrowerKeys.find? (fun k => borrowerKeyName k = s)

/-- Strip leading and trailing whitespace from a character list. -/
def trimChars (l : List Char) : List Char :=
  ((l.dropWhile Char.isWhitespace).reverse.dropWhile Char.isWhitespace).reverse

/-- Humanize a camelCase key, modelling
`key.replace(/([A-Z])/g, ' $1').trim()`: a space is inserted before every
upper-case letter, then the ends are trimmed. -/
def humanizeKey (s : String) : String :=
  (trimChars (s.toList.flatMap (fun c => if c.isUpper then [' ', c] else [c]))).asString

/-- Capitalize the first character, modelling
`key.charAt(0).toUpperCase() + key.slice(1)`. -/
def capitalizeKey (s : String) : String :=
  match s.toList with
  | [] => ""
  | c :: cs => (c.toUpper :: cs).asString

/-- Resolve a user id to a display name, modelling
`availableUsers.find(u => u.id === uid)?.name || dflt`. -/
def userNameOrDefault (users : List User) (uid : Option String) (dflt : String) : String :=
  match users.find? (fun u => some u.id = uid) with
  | some u => if u.name = "" then dflt else u.name
  | none => dflt

/-- First diff source of `prepareReview`: the `status` field. -/
def statusChange (lead localLead : Lead) : List DetectedChange :=
  if lead.status ≠ localLead.status then
    [{ id := "status", field := "status", label := "Lead Status",
       oldValue := .ofStatus lead.status, newValue := .ofStatus localLead.status,
       reason := .CORRECTION, comment := "", isApplied := true }]
  else []

/-- Second diff source of `prepareReview`: the `assignedTo` id, displayed
through resolved user names. -/
def assignedToChange (availableUsers : List User) (lead localLead : Lead) : List DetectedChange :=
  if lead.assignedTo ≠ localLead.assignedTo then
    [{ id := "assignedTo", field := "assignedTo", label := "LO Assignment",
       oldValue := .ofStr (userNameOrDefault availableUsers lead.assignedTo ("Unknown")),
       newValue := .ofStr (userNameOrDefault availableUsers localLead.assignedTo ("Unknown")),
       reason := .OTHER, comment := "Reassigned LO", isApplied := true }]
  else []

/-- Third diff source of `prepareReview`: the `processorId` id, displayed
through resolved user names. -/
def processorIdChange (availableUsers : List User) (lead localLead : Lead) : List DetectedChange :=
  if lead.processorId ≠ localLead.processorId then
    [{ id := "processorId", field := "processorId", label := "Processor Assignment",
       oldValue := .ofStr (userNameOrDefault availableUsers lead.processorId ("Unassigned")),
       newValue := .ofStr (userNameOrDefault availableUsers localLead.processorId ("Unassigned")),
       reason := .OTHER, comment := "Updated Processor", isApplied := true }]
  else []

/-- Fourth diff source of `prepareReview`, per `loanParams` key.  The
source compares with the coercing `!=`; both sides here come from the same
typed field, where loose and strict (in)equality coincide. -/
def loanKeyChange (lead localLead : Lead) (k : LoanKey) : List DetectedChange :=
  if lead.loanParams.getVal k ≠ localLead.loanParams.getVal k then
    [{ id := "lp-" ++ loanKeyName k, field := loanKeyName k,
       label := "Loan " ++ humanizeKey (loanKeyName k),
       oldValue := .ofLoan (lead.loanParams.getVal k),
       newValue := .ofLoan (localLead.loanParams.getVal k),
       reason := .CORRECTION, comment := "", isApplied := true }]
  else []

/-- Per-field part of the fifth diff source of `prepareReview`. -/
def borrowerFieldChange (pre : String) (bId : String) (original b : Borrower)
    (k : BorrowerKey) : List DetectedChange :=
  if original.getB k ≠ b.getB k then
    [{ id := "b-" ++ bId ++ "-" ++ borrowerKeyName k,
       field := pre ++ " " ++ borrowerKeyName k,
       label := pre ++ " " ++ capitalizeKey (borrowerKeyName k),
       oldValue := .ofStr (original.getB k), newValue := .ofStr (b.getB k),
       reason := .CORRECTION, comment := "", isApplied := true }]
  else []

/-- Fifth diff source of `prepareReview`, per draft borrower (paired with
its index): editable fields of every borrower also present in the
persisted lead, matched by borrower id; newly added borrowers are skipped. -/
def borrowerChangesFor (lead : Lead) (p : Nat × Borrower) : List DetectedChange :=
  match lead.borrowers.find? (fun ob => ob.id = p.2.id) with
  | none => []
  | some original =>
      let pre := if p.2.isPrimary then "Primary" else "Co-Borrower " ++ toString p.1
      borrowerKeys.flatMap (borrowerFieldChange pre p.2.id original p.2)

/-- Diff computation, from `prepareReview`: compare the persisted `lead`
against the draft `localLead` across the change sources, accumulated in the
fixed source order — status, LO assignment, processor assignment, every
`loanParams` key, then every editable field of every borrower present in
both versions. -/
def prepareReview (availableUsers : List User) (lead localLead : Lead) : List DetectedChange :=
  statusChange lead localLead ++
  assignedToChange availableUsers lead localLead ++
  processorIdChange availableUsers lead localLead ++
  loanKeys.flatMap (loanKeyChange lead localLead) ++
  localLead.borrowers.enum.flatMap (borrowerChangesFor lead)

/-- Test whether `p` is a prefix of `s`, character-wise. -/
def strStartsWith (s p : String) : Bool :=
  p.toList.isPrefixOf s.toList

/-- Split a character list on a separator character. -/
def splitCharList (sep : Char) (l : List Char) : List (List Char) :=
  l.foldr (fun c acc =>
    match acc with
    | [] => [[c]]
    | h :: t => if c = sep then [] :: h :: t else (c :: h) :: t) [[]]

/-- Split a string on dashes, modelling `id.split('-')`. -/
def splitDash (s : String) : List String :=
  (splitCharList '-' s.toList).map List.asString

/-- Join strings with dashes, modelling `parts.slice(2).join('-')`. -/
def joinDash : List String → String
  | [] => ""
  | p :: ps => ps.foldl (fun acc q => acc ++ "-" ++ q) p

/-- Revert one unapplied change on the merged lead, from the
`unappliedChanges.forEach` loop of `executeBatchSave`.  `lead` is the
persisted baseline (used for the assignment reverts, which restore the
original ids rather than the display strings recorded in the change). -/
def revertChange (lead : Lead) (finalLead : Lead) (c : DetectedChange) : Lead :=
  if c.id = "status" then
    match c.oldValue with
    | .ofStatus s => { finalLead with status := s }
    | _ => finalLead
  else if c.id = "assignedTo" then { finalLead with assignedTo := lead.assignedTo }
  else if c.id = "processorId" then { finalLead with processorId := lead.processorId }
  else if strStartsWith c.id ("lp-") then
    match loanKeyOfName c.field, c.oldValue with
    | some k, .ofLoan v => { finalLead with loanParams := finalLead.loanParams.setVal k v }
    | _, _ => finalLead
  else if strStartsWith c.id ("b-") then
    let parts := splitDash c.id
    let bId := (parts.get? 1).getD ""
    let fieldName := joinDash (parts.drop 2)
    match finalLead.borrowers.findIdx? (fun b => b.id = bId) with
    | none => finalLead
    | some bIndex =>
        match finalLead.borrowers.get? bIndex, borrowerKeyOfName fieldName, c.oldValue with
        | some b, some k, .ofStr s =>
            { finalLead with borrowers := finalLead.borrowers.set bIndex (b.setB k s) }
        | _, _, _ => finalLead
  else finalLead

/-- Commit, from `executeBatchSave`: starting from the draft, revert every
unapplied change, synthesize one new `ChangeLogEntry` per applied change
(fresh id from `genId`, timestamp `now`, author `currentUserName`), and
prepend the batch — newest first — to the lead's change log.  The caller
then persists the result via `saveLead`. -/
def executeBatchSave (currentUserName : String) (now : Nat) (genId : Nat → String)
    (lead localLead : Lead) (detectedChanges : List DetectedChange) : Lead :=
  let appliedChanges := detectedChanges.filter (fun c => c.isApplied)
  let unappliedChanges := detectedChanges.filter (fun c => !c.isApplied)
  let finalLead := unappliedChanges.foldl (revertChange lead) localLead
  let newLogs : List ChangeLogEntry := appliedChanges.enum.map (fun p =>
    { id := genId p.1, timestamp := now, field := p.2.label,
      oldValue := p.2.oldValue, newValue := p.2.newValue,
      reason := p.2.reason, comment := p.2.comment, changedBy := currentUserName })
  { finalLead with changeLog := newLogs ++ finalLead.changeLog }

/-- Structural borrower addition, from `handleAddBorrower`: refused (`none`)
when 4 borrowers are already present; otherwise append a placeholder
borrower, prepend one dedicated log entry (reason `BORROWER_REQUEST`), and
return the lead that is immediately persisted via `saveLead`.  Note the
operation starts from the current draft `localLead`. -/
def handleAddBorrower (currentUserName : String) (newBorrowerId newLogId : String)
    (now : Nat) (localLead : Lead) : Option Lead :=
  if localLead.borrowers.length ≥ 4 then none
  else
    let newBorrower : Borrower :=
      { id := newBorrowerId, firstName := "New", lastName := "Borrower",
        email := "", phone := "", isPrimary := false }
    let updatedBorrowers := localLead.borrowers ++ [newBorrower]
    let log : ChangeLogEntry :=
      { id := newLogId, timestamp := now, field := "Borrowers",
        oldValue := .ofNum (localLead.borrowers.length : ℚ),
        newValue := .ofNum (updatedBorrowers.length : ℚ),
        reason := .BORROWER_REQUEST, comment := "Added new co-borrower",
        changedBy := currentUserName }
    some { localLead with borrowers := updatedBorrowers, changeLog := log :: localLead.changeLog }

/-- Structural borrower removal, from `handleRemoveBorrower`: refused
(`none`) for index 0 (the primary); otherwise remove the borrower at
`index`, prepend one dedicated log entry (reason `OTHER`), and return the
lead that is immediately persisted via `saveLead`.  An out-of-range index
is also `none` (the source would crash there; the UI only passes valid
indices).  Note the operation starts from the current draft `localLead`. -/
def handleRemoveBorrower (currentUserName : String) (newLogId : String)
    (now : Nat) (index : Nat) (localLead : Lead) : Option Lead :=
  if index = 0 then none
  else
    match localLead.borrowers.get? index with
    | none => none
    | some removed =>
        let remaining := (localLead.borrowers.enum.filter (fun p => p.1 ≠ index)).map Prod.snd
        let log : ChangeLogEntry :=
          { id := newLogId, timestamp := now, field := "Borrowers",
            oldValue := .ofStr ("Deleted " ++ removed.firstName), newValue := .ofStr ("Removed"),
            reason := .OTHER, comment := "Removed co-borrower",
            changedBy := currentUserName }
        some { localLead with borrowers := remaining, changeLog := log :: localLead.changeLog }

/-! ### The advisory AI boundary -/

/-- Character-list substring test used by `strIncludes`. -/
def charsIncl (s sub : List Char) : Bool :=
  match s with
  | [] => sub.isEmpty
  | _ :: tail => sub.isPrefixOf s || charsIncl tail sub

/-- Substring test, modelling `message.includes(sub)`. -/
def strIncludes (s sub : String) : Bool :=
  charsIncl s.toList sub.toList

/-- Shape of a thrown provider error, keeping the fields `handleGeminiError`
inspects: `status`, `code`, the nested `error.code`, and `message`. -/
structure JsError where
  status : Option Int
  code : Option Int
  nestedCode : Option Int
  message : Option String
deriving DecidableEq

/-- Rate-limit detection of `handleGeminiError`: a 429 in any of the three
code slots, or a message mentioning `429` or `quota`. -/
def isRateLimit (e : JsError) : Bool :=
  e.status = some 429 || e.code = some 429 || e.nestedCode = some 429 ||
  (match e.message with
   | some m => strIncludes m ("429")
   | none => false) ||
  (match e.message with
   | some m => strIncludes m ("quota")
   | none => false)

/-- Error-to-placeholder conversion, from `handleGeminiError`. -/
def handleGeminiError (e : JsError) : String :=
  if isRateLimit e then "AI Usage Limit Reached. Please try again later."
  else "AI Service Unavailable."

/-- Summary generation, from `generateLeadSummary`.  The provider call's
outcome is passed as `provider`: `.ok` carries the optional `response.text`
and `.error` a thrown error.  The function is total — no failure propagates
to the caller. -/
def generateLeadSummary (lead : Lead) (touches : List Touch)
    (provider : Except JsError (Option String)) : String :=
  if touches.length = 0 then "No interaction history available."
  else
    match provider with
    | .ok t =>
        match t with
        | some s => if s = "" then "Could not generate summary." else s
        | none => "Could not generate summary."
    | .error e => handleGeminiError e

/-- Successfully parsed JSON payload of `suggestNextAction` (both keys may
be missing from the provider's reply). -/
structure SuggestJson where
  action : Option String
  rationale : Option String
deriving DecidableEq

/-- The structured suggestion returned by `suggestNextAction`. -/
structure Suggestion where
  action : String
  rationale : String
deriving DecidableEq

/-- JavaScript `value || dflt` for an optional string (missing or empty
falls back to the default). -/
def jsOrElse (o : Option String) (dflt : String) : String :=
  match o with
  | some s => if s = "" then dflt else s
  | none => dflt

/-- Next-action suggestion, from `suggestNextAction`.  `provider` is the
outcome of the provider call followed by `JSON.parse`: `.ok` carries the
parsed payload, `.error` any error thrown inside the `try` (provider
failure or parse failure) — the catch converts it to the fixed fallback.
The function is total — no failure propagates to the caller. -/
def suggestNextAction (lead : Lead) (touches : List Touch)
    (provider : Except JsError SuggestJson) : Suggestion :=
  match provider with
  | .ok j =>
      { action := jsOrElse j.action ("Continue regular follow-up"),
        rationale := jsOrElse j.rationale ("Maintain momentum until borrower makes a decision.") }
  | .error e => { action := "Review Required", rationale := handleGeminiError e }

/-! ### General helper lemmas -/

/-- Members of `enumFrom` have their payload in the underlying list. -/
theorem mem_enumFrom_snd {α : Type _} {p : Nat × α} :
    ∀ {l : List α} {n : Nat}, p ∈ l.enumFrom n → p.2 ∈ l := by
  intro l
  induction l with
  | nil => intro n h; simp [List.enumFrom] at h
  | cons a t ih =>
      intro n h
      simp only [List.enumFrom, List.mem_cons] at h
      rcases h with rfl | h
      · simp
      · exact List.mem_cons_of_mem _ (ih h)

/-- Members of `enum` have their payload in the underlying list. -/
theorem mem_enum_snd {α : Type _} {p : Nat × α} {l : List α} (h : p ∈ l.enum) : p.2 ∈ l :=
  mem_enumFrom_snd h

/-- First components in `enumFrom n` are at least `n`. -/
theorem fst_ge_of_mem_enumFrom {α : Type _} {p : Nat × α} :
    ∀ {l : List α} {n : Nat}, p ∈ l.enumFrom n → n ≤ p.1 := by
  intro l
  induction l with
  | nil => intro n h; simp [List.enumFrom] at h
  | cons a t ih =>
      intro n h
      simp only [List.enumFrom, List.mem_cons] at h
      rcases h with rfl | h
      · exact Nat.le_refl _
      · exact Nat.le_of_succ_le (ih h)

/-- The payload projection of `enumFrom` recovers the list. -/
theorem map_snd_enumFrom {α : Type _} : ∀ (l : List α) (n : Nat), (l.enumFrom n).map Prod.snd = l := by
  intro l
  induction l with
  | nil => intro n; simp [List.enumFrom]
  | cons a t ih => intro n; simp [List.enumFrom, ih]

/-- In a list whose keys are pairwise distinct, looking a member up by its
own key finds exactly that member. -/
theorem find?_key_self {α β : Type _} [DecidableEq β] (f : α → β) {b : α} :
    ∀ {l : List α}, b ∈ l → l.Pairwise (fun x y => f x ≠ f y) →
      l.find? (fun x => f x = f b) = some b := by
  intro l
  induction l with
  | nil => intro hb; cases hb
  | cons a t ih =>
      intro hb hp
      rcases List.mem_cons.mp hb with rfl | hbt
      · exact List.find?_cons_of_pos _ (by simp)
      · have hne : f a ≠ f b := (List.pairwise_cons.mp hp).1 b hbt
        rw [List.find?_cons_of_neg _ (by simpa using hne)]
        exact ih hbt (List.pairwise_cons.mp hp).2

/-- Characterization of `find?`: it returns `b` exactly when `b` matches
and is preceded only by non-matching elements. -/
theorem find?_eq_some_first {α : Type _} (p : α → Bool) (b : α) :
    ∀ (l : List α), l.find? p = some b ↔
      p b = true ∧ ∃ l₁ l₂, l = l₁ ++ b :: l₂ ∧ ∀ x ∈ l₁, p x = false := by
  intro l
  induction l with
  | nil => simp
  | cons a t ih =>
      by_cases ha : p a = true
      · rw [List.find?_cons_of_pos _ ha]
        constructor
        · intro h
          have hab : a = b := by injection h
          subst hab
          exact ⟨ha, [], t, rfl, by simp⟩
        · rintro ⟨hpb, l₁, l₂, heq, hall⟩
          cases l₁ with
          | nil =>
              have : a = b := (List.cons.injEq _ _ _ _ ▸ heq).1
              exact congrArg some this
          | cons c cs =>
              have hc : a = c := (List.cons.injEq _ _ _ _ ▸ heq).1
              have := hall c (List.mem_cons_self _ _)
              rw [← hc, ha] at this
              cases this
      · rw [List.find?_cons_of_neg _ ha, ih]
        constructor
        · rintro ⟨hpb, l₁, l₂, rfl, hall⟩
          refine ⟨hpb, a :: l₁, l₂, rfl, ?_⟩
          intro x hx
          rcases List.mem_cons.mp hx with rfl | hx
          · exact Bool.not_eq_true _ ▸ (by simpa using ha)
          · exact hall x hx
        · rintro ⟨hpb, l₁, l₂, heq, hall⟩
          cases l₁ with
          | nil =>
              have hab : a = b := (List.cons.injEq _ _ _ _ ▸ heq).1
              rw [hab] at ha
              exact absurd hpb ha
          | cons c cs =>
              have hc : a = c := (List.cons.injEq _ _ _ _ ▸ heq).1
              have ht : t = cs ++ b :: l₂ := (List.cons.injEq _ _ _ _ ▸ heq).2
              exact ⟨hpb, cs, l₂, ht, fun x hx => hall x (List.mem_cons_of_mem _ hx)⟩

/-- Setting an index to the value already stored there is the identity. -/
theorem set_get?_self {α : Type _} {a : α} :
    ∀ {l : List α} {i : Nat}, l.get? i = some a → l.set i a = l := by
  intro l
  induction l with
  | nil => intro i h; simp at h
  | cons x t ih =>
      intro i h
      cases i with
      | zero =>
          have : x = a := by simpa using h
          subst this
          rfl
      | succ n =>
          have hrec : t.set n a = t := ih (by simpa using h)
          simp [List.set, hrec]

/-- A successful `findIdx?` points at an element satisfying the predicate. -/
theorem findIdx?_some_get? {α : Type _} (p : α → Bool) {l : List α} {i : Nat}
    (h : l.findIdx? p = some i) : ∃ a, l.get? i = some a ∧ p a = true := by
  rw [List.findIdx?_eq_some_iff_findIdx_eq] at h
  obtain ⟨hlen, hidx⟩ := h
  refine ⟨l.get ⟨i, hlen⟩, List.get?_eq_get hlen, ?_⟩
  subst hidx
  simpa using List.findIdx_getElem

/-- Replacing an element that fails the filter predicate by another value
that also fails it does not change the filtered list. -/
theorem filter_set_both_false {α : Type _} (p : α → Bool) {a x : α}
    (hpa : p a = false) (hpx : p x = false) :
    ∀ {l : List α} {i : Nat}, l.get? i = some a → (l.set i x).filter p = l.filter p := by
  intro l
  induction l with
  | nil => intro i h; simp at h
  | cons y t ih =>
      intro i h
      cases i with
      | zero =>
          have : y = a := by simpa using h
          subst this
          simp [List.set, List.filter_cons, hpa, hpx]
      | succ n =>
          have hrec := ih (by simpa using h)
          cases hpy : p y <;> simp [List.set, List.filter_cons, hpy, hrec]

/-- Filtering `enumFrom n` by an index bound below `n` keeps everything. -/
theorem enumFrom_filter_ne_of_lt {α : Type _} {k : Nat} :
    ∀ (l : List α) (n : Nat), k < n →
      (l.enumFrom n).filter (fun p => p.1 ≠ k) = l.enumFrom n := by
  intro l
  induction l with
  | nil => intro n _; simp [List.enumFrom]
  | cons a t ih =>
      intro n hk
      simp only [List.enumFrom]
      have h1 : (decide ((n, a).1 ≠ k)) = true := by
        simp only [decide_eq_true_eq]
        omega
      rw [List.filter_cons]
      simp only [h1, if_true]
      rw [ih (n + 1) (Nat.lt_succ_of_lt hk)]

/-- The index-dropping filter of the source (`filter((_, i) => i !== index)`
over an enumerated list) removes exactly the element at that index. -/
theorem enumFrom_filter_ne_map_snd {α : Type _} :
    ∀ (l : List α) (n i : Nat),
      (((l.enumFrom n).filter (fun p => p.1 ≠ n + i)).map Prod.snd) = l.eraseIdx i := by
  intro l
  induction l with
  | nil => intro n i; simp [List.enumFrom]
  | cons a t ih =>
      intro n i
      cases i with
      | zero =>
          simp only [List.enumFrom]
          have h0 : (decide ((n, a).1 ≠ n + 0)) = false := by simp
          rw [List.filter_cons]
          simp only [h0, if_false, Bool.false_eq_true]
          rw [enumFrom_filter_ne_of_lt t (n + 1) (by omega), map_snd_enumFrom]
          rfl
      | succ m =>
          simp only [List.enumFrom]
          have h1 : (decide ((n, a).1 ≠ n + (m + 1))) = true := by
            simp only [decide_eq_true_eq]
            omega
          rw [List.filter_cons]
          simp only [h1, if_true]
          have h2 : n + (m + 1) = (n + 1) + m := by omega
          simp only [List.map_cons, h2, ih (n + 1) m]
          rfl

/-- Version of `enumFrom_filter_ne_map_snd` for `enum`. -/
theorem enum_filter_ne_map_snd {α : Type _} (l : List α) (i : Nat) :
    ((l.enum.filter (fun p => p.1 ≠ i)).map Prod.snd) = l.eraseIdx i := by
  have := enumFrom_filter_ne_map_snd l 0 i
  simpa [List.enum] using this

/-! ### Evaluation lemmas for the diff sources -/

/-- The status source detects a difference. -/
theorem statusChange_ne {lead localLead : Lead} (h : lead.status ≠ localLead.status) :
    statusChange lead localLead =
      [{ id := "status", field := "status", label := "Lead Status",
         oldValue := .ofStatus lead.status, newValue := .ofStatus localLead.status,
         reason := .CORRECTION, comment := "", isApplied := true }] := by
  simp only [statusChange]
  rw [if_pos h]

/-- The status source is empty when the statuses agree. -/
theorem statusChange_eq {lead localLead : Lead} (h : lead.status = localLead.status) :
    statusChange lead localLead = [] := by
  simp [statusChange, h]

/-- The LO-assignment source is empty when the ids agree. -/
theorem assignedToChange_eq (users : List User) {lead localLead : Lead}
    (h : lead.assignedTo = localLead.assignedTo) :
    assignedToChange users lead localLead = [] := by
  simp [assignedToChange, h]

/-- The processor-assignment source is empty when the ids agree. -/
theorem processorIdChange_eq (users : List User) {lead localLead : Lead}
    (h : lead.processorId = localLead.processorId) :
    processorIdChange users lead localLead = [] := by
  simp [processorIdChange, h]

/-- A `loanParams` key with an unchanged value produces no change. -/
theorem loanKeyChange_eq {lead localLead : Lead} {k : LoanKey}
    (h : lead.loanParams.getVal k = localLead.loanParams.getVal k) :
    loanKeyChange lead localLead k = [] := by
  simp [loanKeyChange, h]

/-- A `loanParams` key with a changed value produces exactly one change. -/
theorem loanKeyChange_ne {lead localLead : Lead} {k : LoanKey}
    (h : lead.loanParams.getVal k ≠ localLead.loanParams.getVal k) :
    loanKeyChange lead localLead k =
      [{ id := "lp-" ++ loanKeyName k, field := loanKeyName k,
         label := "Loan " ++ humanizeKey (loanKeyName k),
         oldValue := .ofLoan (lead.loanParams.getVal k),
         newValue := .ofLoan (localLead.loanParams.getVal k),
         reason := .CORRECTION, comment := "", isApplied := true }] := by
  simp only [loanKeyChange]
  rw [if_pos h]

/-- Diffing a borrower against itself produces no change. -/
theorem borrowerFieldChange_self (pre bId : String) (b : Borrower) (k : BorrowerKey) :
    borrowerFieldChange pre bId b b k = [] := by
  simp [borrowerFieldChange]

/-- A borrower list with pairwise distinct ids produces no change when the
draft and persisted borrowers coincide. -/
theorem borrowerChangesFor_self (lead : Lead)
    (hids : lead.borrowers.Pairwise (fun x y => x.id ≠ y.id))
    (p : Nat × Borrower) (hp : p ∈ lead.borrowers.enum) :
    borrowerChangesFor lead p = [] := by
  have hmem : p.2 ∈ lead.borrowers := mem_enum_snd hp
  simp only [borrowerChangesFor]
  rw [find?_key_self Borrower.id hmem hids]
  simp [borrowerKeys, borrowerFieldChange_self]

/-- The whole borrower pass is empty when the draft borrower list is the
persisted one (with pairwise distinct ids). -/
theorem borrower_pass_self (lead : Lead) (bs : List Borrower)
    (hbs : bs = lead.borrowers)
    (hids : lead.borrowers.Pairwise (fun x y => x.id ≠ y.id)) :
    bs.enum.flatMap (borrowerChangesFor lead) = [] := by
  subst hbs
  rw [List.flatMap_eq_nil_iff]
  intro p hp
  exact borrowerChangesFor_self lead hids p hp

/-! ### Claim theorems -/

/-- C1: for every persisted lead `P` and draft `D` obtained from `P` by
changing exactly `status` and `loanParams.loanAmount` (borrower ids being
pairwise distinct, as the schema's PK marking guarantees), `prepareReview`
yields exactly the two `DetectedChange`s with old/new values matching
`P`/`D`; committing with both deselected leaves the lead equal to `P` on
those fields and adds no log entries; committing with both selected leaves
the lead equal to `D` on those fields and prepends exactly the two new
entries, newest first. -/
theorem reconciliation_roundtrip (users : List User) (uname : String) (now : Nat)
    (genId : Nat → String) (P D : Lead) (s' : LeadStatus) (a' : ℚ)
    (hD : D = { P with status := s', loanParams := { P.loanParams with loanAmount := a' } })
    (hs : s' ≠ P.status) (ha : a' ≠ P.loanParams.loanAmount)
    (hids : P.borrowers.Pairwise (fun x y => x.id ≠ y.id)) :
    prepareReview users P D =
      [{ id := "status", field := "status", label := "Lead Status",
         oldValue := .ofStatus P.status, newValue := .ofStatus s',
         reason := .CORRECTION, comment := "", isApplied := true },
       { id := "lp-loanAmount", field := "loanAmount", label := "Loan loan Amount",
         oldValue := .ofLoan (.num P.loanParams.loanAmount), newValue := .ofLoan (.num a'),
         reason := .CORRECTION, comment := "", isApplied := true }] ∧
    ((executeBatchSave uname now genId P D
        ((prepareReview users P D).map (fun c => { c with isApplied := false }))).status
        = P.status ∧
     (executeBatchSave uname now genId P D
        ((prepareReview users P D).map (fun c => { c with isApplied := false }))).loanParams.loanAmount
        = P.loanParams.loanAmount ∧
     (executeBatchSave uname now genId P D
        ((prepareReview users P D).map (fun c => { c with isApplied := false }))).changeLog
        = P.changeLog) ∧
    ((executeBatchSave uname now genId P D (prepareReview users P D)).status = D.status ∧
     (executeBatchSave uname now genId P D (prepareReview users P D)).loanParams.loanAmount
        = D.loanParams.loanAmount ∧
     (executeBatchSave uname now genId P D (prepareReview users P D)).changeLog =
       { id := genId 0, timestamp := now, field := "Lead Status",
         oldValue := .ofStatus P.status, newValue := .ofStatus s',
         reason := .CORRECTION, comment := "", changedBy := uname } ::
       { id := genId 1, timestamp := now, field := "Loan loan Amount",
         oldValue := .ofLoan (.num P.loanParams.loanAmount), newValue := .ofLoan (.num a'),
         reason := .CORRECTION, comment := "", changedBy := uname } :: P.changeLog) := by
  subst hD
  have hstat :
      statusChange P { P with status := s', loanParams := { P.loanParams with loanAmount := a' } } =
        [{ id := "status", field := "status", label := "Lead Status",
           oldValue := .ofStatus P.status, newValue := .ofStatus s',
           reason := .CORRECTION, comment := "", isApplied := true }] :=
    statusChange_ne (Ne.symm hs)
  have hassigned :
      assignedToChange users P { P with status := s', loanParams := { P.loanParams with loanAmount := a' } } = [] :=
    assignedToChange_eq users rfl
  have hproc :
      processorIdChange users P { P with status := s', loanParams := { P.loanParams with loanAmount := a' } } = [] :=
    processorIdChange_eq users rfl
  have hamount :
      loanKeyChange P { P with status := s', loanParams := { P.loanParams with loanAmount := a' } } .loanAmount =
        [{ id := "lp-loanAmount", field := "loanAmount", label := "Loan loan Amount",
           oldValue := .ofLoan (.num P.loanParams.loanAmount), newValue := .ofLoan (.num a'),
           reason := .CORRECTION, comment := "", isApplied := true }] :=
    loanKeyChange_ne (by simpa [LoanParams.getVal] using Ne.symm ha)
  have h2 : loanKeyChange P { P with status := s', loanParams := { P.loanParams with loanAmount := a' } } .purchasePrice = [] := loanKeyChange_eq rfl
  have h3 : loanKeyChange P { P with status := s', loanParams := { P.loanParams with loanAmount := a' } } .interestRate = [] := loanKeyChange_eq rfl
  have h4 : loanKeyChange P { P with status := s', loanParams := { P.loanParams with loanAmount := a' } } .loanType = [] := loanKeyChange_eq rfl
  have h5 : loanKeyChange P { P with status := s', loanParams := { P.loanParams with loanAmount := a' } } .purpose = [] := loanKeyChange_eq rfl
  have h6 : loanKeyChange P { P with status := s', loanParams := { P.loanParams with loanAmount := a' } } .propertyType = [] := loanKeyChange_eq rfl
  have h7 : loanKeyChange P { P with status := s', loanParams := { P.loanParams with loanAmount := a' } } .propertyUse = [] := loanKeyChange_eq rfl
  have h8 : loanKeyChange P { P with status := s', loanParams := { P.loanParams with loanAmount := a' } } .state = [] := loanKeyChange_eq rfl
  have h9 : loanKeyChange P { P with status := s', loanParams := { P.loanParams with loanAmount := a' } } .zip = [] := loanKeyChange_eq rfl
  have h10 : loanKeyChange P { P with status := s', loanParams := { P.loanParams with loanAmount := a' } } .creditScore = [] := loanKeyChange_eq rfl
  have hbor :
      ({ P with status := s', loanParams := { P.loanParams with loanAmount := a' } } : Lead).borrowers.enum.flatMap (borrowerChangesFor P) = [] :=
    borrower_pass_self P _ rfl hids
  have hpr :
      prepareReview users P { P with status := s', loanParams := { P.loanParams with loanAmount := a' } } =
        [{ id := "status", field := "status", label := "Lead Status",
           oldValue := .ofStatus P.status, newValue := .ofStatus s',
           reason := .CORRECTION, comment := "", isApplied := true },
         { id := "lp-loanAmount", field := "loanAmount", label := "Loan loan Amount",
           oldValue := .ofLoan (.num P.loanParams.loanAmount), newValue := .ofLoan (.num a'),
           reason := .CORRECTION, comment := "", isApplied := true }] := by
    simp only [prepareReview, loanKeys, List.flatMap_cons, List.flatMap_nil]
    rw [hstat, hassigned, hproc, hbor, hamount, h2, h3, h4, h5, h6, h7, h8, h9, h10]
    simp
  refine ⟨hpr, ?_, ?_⟩
  · rw [hpr]
    exact ⟨rfl, rfl, rfl⟩
  · rw [hpr]
    exact ⟨rfl, rfl, rfl⟩

/-! ### Concrete sample data for witnesses and counterexamples -/

/-- Sample loan parameters (integer-valued where possible). -/
def wLoanParams : LoanParams :=
  { loanAmount := 450000, purchasePrice := 500000, interestRate := 7,
    loanType := "CONV", purpose := "PURCHASE", propertyType := .SFH,
    propertyUse := .PRIMARY, state := "TX", zip := "75001", creditScore := 740 }

/-- Sample primary borrower. -/
def wBorrower : Borrower :=
  { id := "b1", firstName := "James", lastName := "Richardson",
    email := "james.r@example.com", phone := "555-0123", isPrimary := true }

/-- Sample persisted lead. -/
def wLead : Lead :=
  { id := "l1", assignedTo := some "lo1", processorId := none, borrowers := [wBorrower],
    status := .NEW, createdAt := 0, updatedAt := 0, lastTouchTimestamp := none,
    lastTouchType := none, totalTouches := 0, nextFollowUp := none,
    loanParams := wLoanParams, changeLog := [] }

/-- Sample loan officer (the seed officer `lo1`). -/
def wUser : User :=
  { id := "lo1", email := "lenny@brokeros.dev", name := "Lenny Loan Officer",
    role := .LO, createdAt := 0 }

/-- Sample lead whose rate is the value the end-to-end scenario starts
from. -/
def c2Lead : Lead :=
  { wLead with loanParams := { wLoanParams with interestRate := 7.125 } }

/-- C1 witness: the round-trip theorem applied to the sample lead with a
concrete status and amount edit. -/
theorem reconciliation_roundtrip_witness :
    (prepareReview [] wLead
      { wLead with
        status := LeadStatus.IN_COMMUNICATION,
        loanParams := { wLead.loanParams with loanAmount := 500000 } }).length = 2 := by
  have h := reconciliation_roundtrip [] ("Alice") 100 (fun _ => "g") wLead
    { wLead with
      status := LeadStatus.IN_COMMUNICATION,
      loanParams := { wLead.loanParams with loanAmount := 500000 } }
    LeadStatus.IN_COMMUNICATION 500000 rfl (by decide) (by decide) (by decide)
  rw [h.1]
  rfl

/-- Committing a pure interest-rate edit adds exactly one log entry, whose
field label is the humanized string. -/
theorem interestRate_commit_log (users : List User) (uname : String) (now : Nat)
    (genId : Nat → String) (P D : Lead) (r' : ℚ)
    (hD : D = { P with loanParams := { P.loanParams with interestRate := r' } })
    (hr : r' ≠ P.loanParams.interestRate)
    (hids : P.borrowers.Pairwise (fun x y => x.id ≠ y.id)) :
    prepareReview users P D =
      [{ id := "lp-interestRate", field := "interestRate", label := "Loan interest Rate",
         oldValue := .ofLoan (.num P.loanParams.interestRate), newValue := .ofLoan (.num r'),
         reason := .CORRECTION, comment := "", isApplied := true }] ∧
    (executeBatchSave uname now genId P D (prepareReview users P D)).changeLog =
      { id := genId 0, timestamp := now, field := "Loan interest Rate",
        oldValue := .ofLoan (.num P.loanParams.interestRate), newValue := .ofLoan (.num r'),
        reason := .CORRECTION, comment := "", changedBy := uname } :: P.changeLog := by
  subst hD
  have hstat : statusChange P { P with loanParams := { P.loanParams with interestRate := r' } } = [] :=
    statusChange_eq rfl
  have hassigned :
      assignedToChange users P { P with loanParams := { P.loanParams with interestRate := r' } } = [] :=
    assignedToChange_eq users rfl
  have hproc :
      processorIdChange users P { P with loanParams := { P.loanParams with interestRate := r' } } = [] :=
    processorIdChange_eq users rfl
  have hrate :
      loanKeyChange P { P with loanParams := { P.loanParams with interestRate := r' } } .interestRate =
        [{ id := "lp-interestRate", field := "interestRate", label := "Loan interest Rate",
           oldValue := .ofLoan (.num P.loanParams.interestRate), newValue := .ofLoan (.num r'),
           reason := .CORRECTION, comment := "", isApplied := true }] :=
    loanKeyChange_ne (by simpa [LoanParams.getVal] using Ne.symm hr)
  have h1 : loanKeyChange P { P with loanParams := { P.loanParams with interestRate := r' } } .loanAmount = [] := loanKeyChange_eq rfl
  have h2 : loanKeyChange P { P with loanParams := { P.loanParams with interestRate := r' } } .purchasePrice = [] := loanKeyChange_eq rfl
  have h4 : loanKeyChange P { P with loanParams := { P.loanParams with interestRate := r' } } .loanType = [] := loanKeyChange_eq rfl
  have h5 : loanKeyChange P { P with loanParams := { P.loanParams with interestRate := r' } } .purpose = [] := loanKeyChange_eq rfl
  have h6 : loanKeyChange P { P with loanParams := { P.loanParams with interestRate := r' } } .propertyType = [] := loanKeyChange_eq rfl
  have h7 : loanKeyChange P { P with loanParams := { P.loanParams with interestRate := r' } } .propertyUse = [] := loanKeyChange_eq rfl
  have h8 : loanKeyChange P { P with loanParams := { P.loanParams with interestRate := r' } } .state = [] := loanKeyChange_eq rfl
  have h9 : loanKeyChange P { P with loanParams := { P.loanParams with interestRate := r' } } .zip = [] := loanKeyChange_eq rfl
  have h10 : loanKeyChange P { P with loanParams := { P.loanParams with interestRate := r' } } .creditScore = [] := loanKeyChange_eq rfl
  have hbor :
      ({ P with loanParams := { P.loanParams with interestRate := r' } } : Lead).borrowers.enum.flatMap (borrowerChangesFor P) = [] :=
    borrower_pass_self P _ rfl hids
  have hpr :
      prepareReview users P { P with loanParams := { P.loanParams with interestRate := r' } } =
        [{ id := "lp-interestRate", field := "interestRate", label := "Loan interest Rate",
           oldValue := .ofLoan (.num P.loanParams.interestRate), newValue := .ofLoan (.num r'),
           reason := .CORRECTION, comment := "", isApplied := true }] := by
    simp only [prepareReview, loanKeys, List.flatMap_cons, List.flatMap_nil]
    rw [hstat, hassigned, hproc, hbor, hrate, h1, h2, h4, h5, h6, h7, h8, h9, h10]
    simp
  refine ⟨hpr, ?_⟩
  rw [hpr]
  rfl

/-- C2 counterexample: at the claim's own scenario (rate 7.125 edited to
6.875, committed with the default `CORRECTION` reason), the single log
entry's `field` is the humanized `"Loan interest Rate"`, not the claimed
`"Loan interestRate"`. -/
theorem interestRate_correction_cex :
    (executeBatchSave ("Alice") 100 (fun _ => "g") c2Lead
        { c2Lead with loanParams := { c2Lead.loanParams with interestRate := 6.875 } }
        (prepareReview [] c2Lead
          { c2Lead with loanParams := { c2Lead.loanParams with interestRate := 6.875 } })).changeLog.map
      (fun e => e.field) = ["Loan interest Rate"] ∧
    ("Loan interest Rate" : String) ≠ "Loan interestRate" := by
  constructor
  · have h := interestRate_commit_log [] ("Alice") 100 (fun _ => "g") c2Lead
      { c2Lead with loanParams := { c2Lead.loanParams with interestRate := 6.875 } }
      6.875 rfl (by norm_num : (6.875 : ℚ) ≠ 7.125) (by decide)
    rw [h.2]
    rfl
  · decide

/-- C2 (amended): committing the single rate edit 7.125 → 6.875 with
reason `CORRECTION` adds exactly one `ChangeLogEntry` at index 0 with the
humanized field `"Loan interest Rate"`, oldValue 7.125, newValue 6.875 and
reason `CORRECTION`. -/
theorem interestRate_correction_amended (users : List User) (uname : String) (now : Nat)
    (genId : Nat → String) (P D : Lead)
    (h7 : P.loanParams.interestRate = 7.125)
    (hD : D = { P with loanParams := { P.loanParams with interestRate := 6.875 } })
    (hids : P.borrowers.Pairwise (fun x y => x.id ≠ y.id)) :
    (executeBatchSave uname now genId P D (prepareReview users P D)).changeLog =
      { id := genId 0, timestamp := now, field := "Loan interest Rate",
        oldValue := .ofLoan (.num (7.125 : ℚ)), newValue := .ofLoan (.num (6.875 : ℚ)),
        reason := .CORRECTION, comment := "", changedBy := uname } :: P.changeLog := by
  have h := interestRate_commit_log users uname now genId P D 6.875 hD
    (by rw [h7]; norm_num) hids
  rw [h.2, h7]

/-- C2 witness: the amended theorem applied to the sample lead. -/
theorem interestRate_correction_witness :
    (executeBatchSave ("Bob") 7 (fun _ => "id") c2Lead
        { c2Lead with loanParams := { c2Lead.loanParams with interestRate := 6.875 } }
        (prepareReview [] c2Lead
          { c2Lead with loanParams := { c2Lead.loanParams with interestRate := 6.875 } })).changeLog.length
      = 1 := by
  have h := interestRate_correction_amended [] ("Bob") 7 (fun _ => "id") c2Lead
    { c2Lead with loanParams := { c2Lead.loanParams with interestRate := 6.875 } }
    rfl rfl (by decide)
  rw [h]
  rfl

/-- Evaluation of `handleAddBorrower` below the 4-borrower cap: the draft
is kept wholesale, one placeholder borrower is appended, and one dedicated
`BORROWER_REQUEST` log entry is prepended. -/
theorem handleAddBorrower_eq (uname nbId logId : String) (now : Nat) (L : Lead)
    (hlt : L.borrowers.length < 4) :
    handleAddBorrower uname nbId logId now L = some
      { L with
        borrowers := L.borrowers ++
          [{ id := nbId, firstName := "New", lastName := "Borrower",
             email := "", phone := "", isPrimary := false }],
        changeLog :=
          { id := logId, timestamp := now, field := "Borrowers",
            oldValue := .ofNum (L.borrowers.length : ℚ),
            newValue := .ofNum ((L.borrowers.length : ℚ) + 1),
            reason := .BORROWER_REQUEST, comment := "Added new co-borrower",
            changedBy := uname } :: L.changeLog } := by
  simp only [handleAddBorrower]
  rw [if_neg (by omega)]
  simp [List.length_append]

/-- Evaluation of `handleRemoveBorrower` at a valid non-zero index: the
draft is kept wholesale, the borrower at `index` is removed, and one
dedicated `OTHER` log entry is prepended. -/
theorem handleRemoveBorrower_eq (uname logId : String) (now : Nat) (idx : Nat) (L : Lead)
    (removed : Borrower) (h0 : idx ≠ 0) (hget : L.borrowers.get? idx = some removed) :
    handleRemoveBorrower uname logId now idx L = some
      { L with
        borrowers := L.borrowers.eraseIdx idx,
        changeLog :=
          { id := logId, timestamp := now, field := "Borrowers",
            oldValue := .ofStr ("Deleted " ++ removed.firstName),
            newValue := .ofStr ("Removed"),
            reason := .OTHER, comment := "Removed co-borrower",
            changedBy := uname } :: L.changeLog } := by
  simp only [handleRemoveBorrower]
  rw [if_neg h0, hget]
  rw [enum_filter_ne_map_snd]

/-- C3 counterexample: with an unrelated `loanAmount` edit pending in the
draft, adding a borrower returns (and hands to `saveLead`) a lead that
carries the pending edit — persisted with no log entry of its own, against
the claim that pending draft edits are neither persisted nor logged. -/
theorem structural_bypass_cex :
    ((handleAddBorrower ("u") ("nb") ("lg") 7
        { wLead with loanParams := { wLead.loanParams with loanAmount := 999000 } }).map
      (fun L => (L.loanParams.loanAmount, L.changeLog.length))) = some (999000, 1) ∧
    wLead.loanParams.loanAmount = 450000 ∧
    ((handleAddBorrower ("u") ("nb") ("lg") 7
        { wLead with loanParams := { wLead.loanParams with loanAmount := 999000 } }).map
      (fun L => (saveLead wUser 8 L { leadsKey := some [wLead], touchesKey := none }).leadsKey.map
        (fun ls => ls.map (fun l => l.loanParams.loanAmount)))) = some (some [999000]) :=
  ⟨rfl, rfl, rfl⟩

/-- C3 (amended): structural borrower edits bypass the review flow and
write immediately with exactly one dedicated log entry
(`BORROWER_REQUEST` for add below the 4-cap, `OTHER` for remove;
removal refused at index 0) — but they save the current draft wholesale,
so unrelated pending draft edits are persisted along with them, without
log entries of their own. -/
theorem structural_edits_amended (uname nbId logId1 logId2 : String)
    (now1 now2 : Nat) (L : Lead) (idx : Nat) (removed : Borrower)
    (hlt : L.borrowers.length < 4) (h0 : idx ≠ 0)
    (hget : L.borrowers.get? idx = some removed) :
    handleAddBorrower uname nbId logId1 now1 L = some
      { L with
        borrowers := L.borrowers ++
          [{ id := nbId, firstName := "New", lastName := "Borrower",
             email := "", phone := "", isPrimary := false }],
        changeLog :=
          { id := logId1, timestamp := now1, field := "Borrowers",
            oldValue := .ofNum (L.borrowers.length : ℚ),
            newValue := .ofNum ((L.borrowers.length : ℚ) + 1),
            reason := .BORROWER_REQUEST, comment := "Added new co-borrower",
            changedBy := uname } :: L.changeLog } ∧
    handleRemoveBorrower uname logId2 now2 idx L = some
      { L with
        borrowers := L.borrowers.eraseIdx idx,
        changeLog :=
          { id := logId2, timestamp := now2, field := "Borrowers",
            oldValue := .ofStr ("Deleted " ++ removed.firstName),
            newValue := .ofStr ("Removed"),
            reason := .OTHER, comment := "Removed co-borrower",
            changedBy := uname } :: L.changeLog } ∧
    handleRemoveBorrower uname logId2 now2 0 L = none := by
  refine ⟨handleAddBorrower_eq uname nbId logId1 now1 L hlt,
    handleRemoveBorrower_eq uname logId2 now2 idx L removed h0 hget, ?_⟩
  simp [handleRemoveBorrower]

/-- C3 witness: the amended theorem applied to a sample two-borrower
draft. -/
theorem structural_edits_witness :
    handleAddBorrower ("u") ("nb") ("lg") 7
        { wLead with borrowers := [wBorrower, { wBorrower with id := "b2", isPrimary := false }] }
      = some
      { wLead with
        borrowers := [wBorrower, { wBorrower with id := "b2", isPrimary := false },
          { id := "nb", firstName := "New", lastName := "Borrower",
            email := "", phone := "", isPrimary := false }],
        changeLog :=
          { id := "lg", timestamp := 7, field := "Borrowers",
            oldValue := .ofNum 2, newValue := .ofNum 3,
            reason := .BORROWER_REQUEST, comment := "Added new co-borrower",
            changedBy := "u" } :: wLead.changeLog } := by
  have h := structural_edits_amended ("u") ("nb") ("lg") ("lg2") 7 8
    { wLead with borrowers := [wBorrower, { wBorrower with id := "b2", isPrimary := false }] }
    1 { wBorrower with id := "b2", isPrimary := false } (by decide) (by decide) rfl
  rw [h.1]
  norm_num

/-- Orphan sample lead: stored without an assignee. -/
def orphanLead : Lead :=
  { wLead with id := "lx", assignedTo := none }

/-- C4 counterexample: the stored lead has no assignee and the user is the
loan officer `lo1` — the lead appears in the user's list (it is migrated to
`lo1` before filtering), yet the user is no Admin/Processor and the lead's
stored `assignedTo` is not the user's id. -/
theorem visibility_cex :
    (∃ l ∈ getLeads wUser [orphanLead], l.id = orphanLead.id) ∧
    ¬(wUser.role = UserRole.ADMIN ∨ wUser.role = UserRole.PROCESSOR ∨
      orphanLead.assignedTo = some wUser.id) := by
  constructor
  · exact ⟨migrate orphanLead, by decide, rfl⟩
  · decide

/-- C4 (amended): a stored lead is in the list returned to a user iff the
user is Admin or Processor, or the lead's post-migration `assignedTo`
(missing or empty values default to the officer id `lo1`) equals the
user's id. -/
theorem visibility_amended (u : User) (ls : List Lead) (L : Lead) (hL : L ∈ ls) :
    migrate L ∈ getLeads u ls ↔
      (u.role = UserRole.ADMIN ∨ u.role = UserRole.PROCESSOR ∨
       (migrate L).assignedTo = some u.id) := by
  have hmem : migrate L ∈ ls.map migrate := List.mem_map_of_mem _ hL
  simp only [getLeads]
  by_cases hrole : u.role = UserRole.ADMIN ∨ u.role = UserRole.PROCESSOR
  · rw [if_pos hrole]
    refine iff_of_true hmem ?_
    rcases hrole with h | h
    · exact Or.inl h
    · exact Or.inr (Or.inl h)
  · rw [if_neg hrole]
    simp only [List.mem_filter, hmem, true_and, decide_eq_true_eq]
    constructor
    · intro h
      exact Or.inr (Or.inr h)
    · rintro (h | h | h)
      · exact absurd (Or.inl h) hrole
      · exact absurd (Or.inr h) hrole
      · exact h

/-- C4 witness: the amended visibility equivalence at the sample officer
and lead. -/
theorem visibility_witness :
    migrate wLead ∈ getLeads wUser [wLead] ↔
      (wUser.role = UserRole.ADMIN ∨ wUser.role = UserRole.PROCESSOR ∨
       (migrate wLead).assignedTo = some wUser.id) :=
  visibility_amended wUser [wLead] wLead (by simp)

/-- Sample store holding the sample lead and no touches. -/
def wStore : Store :=
  { leadsKey := some [wLead], touchesKey := none }

/-- Sample touch input referencing the sample lead. -/
def wTouchInput : TouchInput :=
  { leadId := "l1", type := .CALL, outcome := .SPOKE, content := "left a message",
    createdBy := "Lenny Loan Officer" }

/-- Sample touch input referencing no stored lead. -/
def wOrphanInput : TouchInput :=
  { leadId := "zz", type := .NOTE, outcome := .INTERNAL, content := "orphan",
    createdBy := "Lenny Loan Officer" }

/-- C5: appending a touch to a lead present in the store bumps
`totalTouches` by exactly 1, stamps `lastTouchTimestamp`/`lastTouchType`
from the new touch, advances a `NEW` status to `ATTEMPTED_CONTACT` and
leaves any other status unchanged; when no stored lead carries the touch's
`leadId` the lead collection is left untouched. -/
theorem addTouch_stats (fid : String) (now : Nat) (tin : TouchInput) (st : Store)
    (ls : List Lead) (i : Nat) (lead : Lead)
    (h1 : st.leadsKey = some ls)
    (h2 : ls.findIdx? (fun l => l.id = tin.leadId) = some i)
    (h3 : ls.get? i = some lead) :
    (∃ lead',
      (addTouch fid now tin st).2.leadsKey = some (ls.set i lead') ∧
      lead'.totalTouches = lead.totalTouches + 1 ∧
      lead'.lastTouchTimestamp = some now ∧
      lead'.lastTouchType = some tin.type ∧
      lead'.status =
        (if lead.status = LeadStatus.NEW then LeadStatus.ATTEMPTED_CONTACT else lead.status)) ∧
    (addTouch fid now tin
        { leadsKey := some (ls.filter (fun l => ¬(l.id = tin.leadId))),
          touchesKey := st.touchesKey }).2.leadsKey
      = some (ls.filter (fun l => ¬(l.id = tin.leadId))) := by
  constructor
  · refine ⟨applyTouchStats
      { id := fid, leadId := tin.leadId, type := tin.type, outcome := tin.outcome,
        content := tin.content, timestamp := now, createdBy := tin.createdBy } lead, ?_, ?_, ?_, ?_, ?_⟩
    · simp only [addTouch, h1, h2, h3]
    · simp only [applyTouchStats]
      split <;> rfl
    · simp only [applyTouchStats]
      split <;> rfl
    · simp only [applyTouchStats]
      split <;> rfl
    · simp only [applyTouchStats]
      split <;> rfl
  · have hfi : (ls.filter (fun l => ¬(l.id = tin.leadId))).findIdx?
        (fun l => l.id = tin.leadId) = none := by
      rw [List.findIdx?_eq_none_iff]
      intro x hx
      have hx2 := (List.mem_filter.mp hx).2
      simpa using hx2
    simp only [addTouch, hfi]

/-- C5 witness: the touch-append invariant at the sample store. -/
theorem addTouch_stats_witness :
    ((addTouch ("t1") 50 wTouchInput wStore).2.leadsKey.map
      (fun ls => ls.map (fun l => l.totalTouches))) = some [1] := by
  obtain ⟨⟨lead', hset, ht, -, -, -⟩, -⟩ :=
    addTouch_stats ("t1") 50 wTouchInput wStore [wLead] 0 wLead rfl rfl rfl
  rw [hset]
  simp [ht, wLead]

/-- C10: a touch whose `leadId` matches no stored lead is still assigned
its fresh id and the current timestamp, persisted into the touch
collection, and returned — while the lead collection is left exactly as it
was. -/
theorem addTouch_orphan (fid : String) (now : Nat) (tin : TouchInput) (st : Store)
    (h : ∀ ls, st.leadsKey = some ls → ∀ l ∈ ls, l.id ≠ tin.leadId) :
    (addTouch fid now tin st).1 =
      { id := fid, leadId := tin.leadId, type := tin.type, outcome := tin.outcome,
        content := tin.content, timestamp := now, createdBy := tin.createdBy } ∧
    (addTouch fid now tin st).2.touchesKey =
      some (st.touchesKey.getD [] ++
        [{ id := fid, leadId := tin.leadId, type := tin.type, outcome := tin.outcome,
           content := tin.content, timestamp := now, createdBy := tin.createdBy }]) ∧
    (addTouch fid now tin st).2.leadsKey = st.leadsKey := by
  cases hk : st.leadsKey with
  | none => simp [addTouch, hk]
  | some ls =>
      have hfi : ls.findIdx? (fun l => l.id = tin.leadId) = none := by
        rw [List.findIdx?_eq_none_iff]
        intro x hx
        simpa using h ls hk x hx
      simp [addTouch, hk, hfi]

/-- C10 witness: the orphan-touch behavior at the sample store. -/
theorem addTouch_orphan_witness :
    (addTouch ("t2") 60 wOrphanInput wStore).2.leadsKey = wStore.leadsKey := by
  refine (addTouch_orphan ("t2") 60 wOrphanInput wStore ?_).2.2
  intro ls hls l hl
  have hls2 : [wLead] = ls := by simpa [wStore] using hls
  rw [← hls2] at hl
  have : l = wLead := by simpa using hl
  subst this
  decide

/-- Replacing an element by one with the same status leaves the projected
status list unchanged. -/
theorem map_status_set (ls : List Lead) (j : Nat) (lead lead' : Lead)
    (hget : ls.get? j = some lead) (hstat : lead'.status = lead.status) :
    (ls.set j lead').map Lead.status = ls.map Lead.status := by
  rw [List.map_set, hstat]
  apply set_get?_self
  rw [List.get?_map, hget]
  rfl

/-- C6: deleting the only touch of a lead zeroes `totalTouches` and nulls
the last-touch data; deleting an id that is not present writes nothing and
returns the store unchanged; and no delete ever changes any lead's
status. -/
theorem deleteTouch_spec (tid lid : String) (st st2 st3 : Store)
    (ts : List Touch) (ls : List Lead) (i : Nat) (lead : Lead)
    (hts : st.touchesKey = some ts)
    (hl : st.leadsKey = some ls)
    (hfi : ls.findIdx? (fun l => l.id = lid) = some i)
    (hget : ls.get? i = some lead)
    (honly : ∀ t ∈ ts, t.leadId = lid → t.id = tid)
    (hmem : ∃ t ∈ ts, t.id = tid)
    (h2 : ∀ t ∈ st2.touchesKey.getD [], t.id ≠ tid) :
    (∃ lead',
      (deleteTouch tid lid st).leadsKey = some (ls.set i lead') ∧
      lead'.totalTouches = 0 ∧ lead'.lastTouchTimestamp = none ∧
      lead'.lastTouchType = none ∧ lead'.status = lead.status) ∧
    deleteTouch tid lid st2 = st2 ∧
    ((deleteTouch tid lid st3).leadsKey.map (fun l2 => l2.map Lead.status)
      = st3.leadsKey.map (fun l2 => l2.map Lead.status)) := by
  refine ⟨?_, ?_, ?_⟩
  · have hlen : ¬((ts.filter (fun t => t.id ≠ tid)).length = ts.length) := by
      intro he
      have hall := (List.filter_length_eq_length).mp he
      obtain ⟨t, htmem, htid⟩ := hmem
      have := hall t htmem
      simp [htid] at this
    have hempty : (ts.filter (fun t => t.id ≠ tid)).filter (fun t => t.leadId = lid) = [] := by
      rw [List.filter_eq_nil_iff]
      intro t htm
      have h1m := List.mem_filter.mp htm
      have hne : t.id ≠ tid := by simpa using h1m.2
      intro hb
      exact hne (honly t h1m.1 (by simpa using hb))
    simp only [deleteTouch, hts, hl, Option.getD_some, hfi, hget, if_neg hlen, hempty,
      sortByTimestampDesc, List.foldr_nil]
    exact ⟨_, rfl, rfl, rfl, rfl, rfl⟩
  · have hkeep : (st2.touchesKey.getD []).filter (fun t => t.id ≠ tid)
        = st2.touchesKey.getD [] := by
      rw [List.filter_eq_self]
      intro a ha
      simpa using h2 a ha
    simp only [deleteTouch, hkeep, eq_self_iff_true, if_true]
  · by_cases hifc : ((st3.touchesKey.getD []).filter (fun t => t.id ≠ tid)).length
        = (st3.touchesKey.getD []).length
    · simp only [deleteTouch, if_pos hifc]
    · cases hk : st3.leadsKey with
      | none => simp only [deleteTouch, if_neg hifc, hk]
      | some ls3 =>
          cases hfi3 : ls3.findIdx? (fun l => l.id = lid) with
          | none => simp only [deleteTouch, if_neg hifc, hk, hfi3]
          | some j =>
              cases hget3 : ls3.get? j with
              | none => simp only [deleteTouch, if_neg hifc, hk, hfi3, hget3]
              | some lead3 =>
                  cases hsd : sortByTimestampDesc
                      (((st3.touchesKey.getD []).filter (fun t => t.id ≠ tid)).filter
                        (fun t => t.leadId = lid)) with
                  | nil =>
                      simp only [deleteTouch, if_neg hifc, hk, hfi3, hget3, hsd,
                        Option.map_some']
                      exact congrArg some (map_status_set ls3 j lead3 _ hget3 rfl)
                  | cons t0 rest =>
                      simp only [deleteTouch, if_neg hifc, hk, hfi3, hget3, hsd,
                        Option.map_some']
                      exact congrArg some (map_status_set ls3 j lead3 _ hget3 rfl)

/-- Sample touch belonging to the sample lead. -/
def wTouch : Touch :=
  { id := "t9", leadId := "l1", type := .CALL, outcome := .SPOKE,
    content := "spoke briefly", timestamp := 10, createdBy := "Lenny Loan Officer" }

/-- Sample lead as it looks after the sample touch was appended. -/
def wLeadTouched : Lead :=
  { wLead with
    totalTouches := 1,
    lastTouchTimestamp := some 10,
    lastTouchType := some .CALL,
    status := .ATTEMPTED_CONTACT }

/-- Sample store where the sample lead has exactly one touch. -/
def wStoreT : Store :=
  { leadsKey := some [wLeadTouched], touchesKey := some [wTouch] }

/-- C6 witness: the delete invariant at the sample store with one touch,
and the no-op behavior at the touchless sample store. -/
theorem deleteTouch_spec_witness :
    ((deleteTouch ("t9") ("l1") wStoreT).leadsKey.map
      (fun ls => ls.map (fun l => (l.totalTouches, l.lastTouchTimestamp, l.status))))
      = some [(0, none, LeadStatus.ATTEMPTED_CONTACT)] ∧
    deleteTouch ("t9") ("l1") wStore = wStore := by
  obtain ⟨⟨lead', hset, h0, hts0, hty0, hst0⟩, hnoop, -⟩ :=
    deleteTouch_spec ("t9") ("l1") wStoreT wStore wStoreT [wTouch] [wLeadTouched] 0
      wLeadTouched rfl rfl rfl rfl (by decide) (by decide) (by decide)
  refine ⟨?_, hnoop⟩
  rw [hset]
  simp [h0, hts0, hst0, wLeadTouched, wLead]

/-- C7: for non-empty query email and phone, `findDuplicateLead` returns
`some L` exactly when `L` is the first visible lead (in collection order)
one of whose borrowers matches the email case-insensitively or the phone
exactly; it is `some` iff any visible lead matches; and with both queries
empty it returns `none`. -/
theorem findDuplicate_spec (u : User) (ls : List Lead) (e p : String)
    (he : e ≠ "") (hp : p ≠ "") :
    (∀ L, findDuplicateLead u ls e p = some L ↔
      (matchesQuery e p L = true ∧ ∃ l₁ l₂, getLeads u ls = l₁ ++ L :: l₂ ∧
        ∀ x ∈ l₁, matchesQuery e p x = false)) ∧
    ((findDuplicateLead u ls e p).isSome ↔ ∃ L ∈ getLeads u ls, matchesQuery e p L = true) ∧
    findDuplicateLead u ls "" "" = none := by
  refine ⟨?_, ?_, ?_⟩
  · intro L
    unfold findDuplicateLead
    exact find?_eq_some_first (matchesQuery e p) L (getLeads u ls)
  · unfold findDuplicateLead
    rw [List.find?_isSome]
  · unfold findDuplicateLead
    rw [List.find?_eq_none]
    intro x _
    simp [matchesQuery]

/-- C7 witness: the duplicate query at the sample data, matching the
borrower's email case-insensitively. -/
theorem findDuplicate_witness :
    (findDuplicateLead wUser [wLead] ("JAMES.R@EXAMPLE.COM") ("000")).isSome = true := by
  have h := findDuplicate_spec wUser [wLead] ("JAMES.R@EXAMPLE.COM") ("000")
    (by decide) (by decide)
  rw [h.2.1]
  exact ⟨migrate wLead, by decide, by decide⟩

/-- C8: `saveLead` upserts against the full stored collection matched by
id — every stored lead with a different id is untouched by both branches;
an update stamps `updatedAt` and keeps the caller-supplied `createdAt`; an
insert appends a lead stamped with both timestamps whose `assignedTo`
defaults to the session user exactly when it was unset. -/
theorem saveLead_spec (user : User) (now : Nat) (lead : Lead) (st st2 : Store)
    (ls ls2 : List Lead) (i : Nat)
    (hl : st.leadsKey = some ls)
    (hfi : ls.findIdx? (fun l => l.id = lead.id) = some i)
    (hl2 : st2.leadsKey = some ls2)
    (hfi2 : ls2.findIdx? (fun l => l.id = lead.id) = none) :
    (saveLead user now lead st).leadsKey = some (ls.set i { lead with updatedAt := now }) ∧
    ({ lead with updatedAt := now } : Lead).createdAt = lead.createdAt ∧
    ((saveLead user now lead st).leadsKey.getD []).filter (fun l => ¬(l.id = lead.id))
      = ls.filter (fun l => ¬(l.id = lead.id)) ∧
    (∃ newLead,
      (saveLead user now lead st2).leadsKey = some (ls2 ++ [newLead]) ∧
      newLead.id = lead.id ∧ newLead.createdAt = now ∧ newLead.updatedAt = now ∧
      newLead.assignedTo =
        (if isFalsyStr lead.assignedTo then some user.id else lead.assignedTo) ∧
      newLead.borrowers = lead.borrowers ∧ newLead.status = lead.status ∧
      newLead.loanParams = lead.loanParams ∧ newLead.changeLog = lead.changeLog) ∧
    ((saveLead user now lead st2).leadsKey.getD []).filter (fun l => ¬(l.id = lead.id))
      = ls2.filter (fun l => ¬(l.id = lead.id)) := by
  have hupd : (saveLead user now lead st).leadsKey
      = some (ls.set i { lead with updatedAt := now }) := by
    simp only [saveLead, hl, Option.getD_some, hfi]
  have hins : (saveLead user now lead st2).leadsKey
      = some (ls2 ++ [{ (if isFalsyStr lead.assignedTo
          then { lead with assignedTo := some user.id } else lead) with
          createdAt := now, updatedAt := now }]) := by
    simp only [saveLead, hl2, Option.getD_some, hfi2]
  have hex : ∃ newLead,
      (saveLead user now lead st2).leadsKey = some (ls2 ++ [newLead]) ∧
      newLead.id = lead.id ∧ newLead.createdAt = now ∧ newLead.updatedAt = now ∧
      newLead.assignedTo =
        (if isFalsyStr lead.assignedTo then some user.id else lead.assignedTo) ∧
      newLead.borrowers = lead.borrowers ∧ newLead.status = lead.status ∧
      newLead.loanParams = lead.loanParams ∧ newLead.changeLog = lead.changeLog := by
    refine ⟨_, hins, ?_, rfl, rfl, ?_, ?_, ?_, ?_, ?_⟩
    · cases hc : isFalsyStr lead.assignedTo <;> simp [hc]
    · cases hc : isFalsyStr lead.assignedTo <;> simp [hc]
    · cases hc : isFalsyStr lead.assignedTo <;> simp [hc]
    · cases hc : isFalsyStr lead.assignedTo <;> simp [hc]
    · cases hc : isFalsyStr lead.assignedTo <;> simp [hc]
    · cases hc : isFalsyStr lead.assignedTo <;> simp [hc]
  refine ⟨hupd, rfl, ?_, hex, ?_⟩
  · rw [hupd, Option.getD_some]
    obtain ⟨a, hga, hpa⟩ := findIdx?_some_get? _ hfi
    refine filter_set_both_false _ ?_ ?_ hga
    · simp [of_decide_eq_true hpa]
    · simp
  · obtain ⟨newLead, heq, hid2, -, -, -, -, -, -, -⟩ := hex
    rw [heq, Option.getD_some, List.filter_append]
    simp [List.filter_cons, hid2]

/-- New lead used to exercise the insert branch of `saveLead`. -/
def wNewLead : Lead :=
  { wLead with id := "l9", assignedTo := none }

/-- C8 witness: the upsert specification applied with the new sample lead,
updating a store that holds it and inserting into the sample store that
does not. -/
theorem saveLead_spec_witness :
    (saveLead wUser 77 wNewLead { leadsKey := some [wNewLead], touchesKey := none }).leadsKey
      = some [{ wNewLead with updatedAt := 77 }] ∧
    ((saveLead wUser 77 wNewLead wStore).leadsKey.getD []).filter
      (fun l => ¬(l.id = wNewLead.id)) = [wLead] := by
  obtain ⟨hupd, -, -, -, hframe⟩ :=
    saveLead_spec wUser 77 wNewLead { leadsKey := some [wNewLead], touchesKey := none }
      wStore [wNewLead] [wLead] 0 rfl (by decide) rfl (by decide)
  refine ⟨?_, ?_⟩
  · rw [hupd]
    rfl
  · rw [hframe]
    rfl

/-- C9: the advisory AI boundary degrades gracefully — with no touches the
summary is the fixed no-history string whatever the provider outcome
(no provider contact); on any provider failure `suggestNextAction` returns
the `Review Required` fallback with the error description and the summary
returns a degraded-service string (one of the two fixed placeholders);
both functions are total, so no failure reaches the caller. -/
theorem advisory_degradation (lead : Lead) (touches : List Touch)
    (prov : Except JsError (Option String)) (e : JsError)
    (ht : touches ≠ []) :
    generateLeadSummary lead [] prov = "No interaction history available." ∧
    suggestNextAction lead touches (.error e) =
      { action := "Review Required", rationale := handleGeminiError e } ∧
    generateLeadSummary lead touches (.error e) = handleGeminiError e ∧
    (handleGeminiError e = "AI Usage Limit Reached. Please try again later." ∨
     handleGeminiError e = "AI Service Unavailable.") := by
  refine ⟨rfl, rfl, ?_, ?_⟩
  · have hlen : ¬(touches.length = 0) := by
      simpa [List.length_eq_zero] using ht
    simp only [generateLeadSummary, if_neg hlen]
  · unfold handleGeminiError
    by_cases hrl : isRateLimit e = true
    · rw [if_pos hrl]
      exact Or.inl rfl
    · rw [if_neg hrl]
      exact Or.inr rfl

/-- Sample rate-limited provider error. -/
def wRateLimitError : JsError :=
  { status := some 429, code := none, nestedCode := none, message := none }

/-- C9 witness: the degradation theorem applied to the sample lead, one
sample touch and the sample rate-limited error. -/
theorem advisory_degradation_witness :
    generateLeadSummary wLead [] (Except.error wRateLimitError)
      = "No interaction history available." ∧
    suggestNextAction wLead [wTouch] (Except.error wRateLimitError) =
      { action := "Review Required",
        rationale := "AI Usage Limit Reached. Please try again later." } := by
  obtain ⟨h1, h2, -, -⟩ :=
    advisory_degradation wLead [wTouch] (Except.error wRateLimitError) wRateLimitError
      (by simp)
  refine ⟨h1, ?_⟩
  rw [h2]
  rfl

end BrokerOS
